import Mathlib

/-!
Verification of the caching layer and display refresh policy of the
`raspi-info-ticker` repository, as a shallow embedding in Lean 4.

The embedding mirrors `src/services/cache_service.py`,
`src/services/crypto_service.py` and the refresh-state machinery of
`src/services/display_service.py`.  Python dictionaries are modelled as
insertion-ordered association lists (`List (String × β)`); `time.time()`
is modelled as an explicit integer clock passed to every operation that
reads it; Python `None` results are modelled with `Option`.
-/

set_option autoImplicit false

universe u

/-- Lookup in an insertion-ordered dictionary (`d[k]` / `k in d` lookup part).
Returns the value of the first (and, for a genuine dict, unique) binding. -/
def dictGet? {β : Type u} : List (String × β) → String → Option β
  | [], _ => none
  | p :: rest, k => if p.1 = k then some p.2 else dictGet? rest k

/-- Membership test of an insertion-ordered dictionary (`k in d`). -/
def dictHas {β : Type u} : List (String × β) → String → Bool
  | [], _ => false
  | p :: rest, k => if p.1 = k then true else dictHas rest k

/-- Assignment `d[k] = v` on an insertion-ordered dictionary: an existing
binding is overwritten in place (keeping its position), a new binding is
appended at the end — exactly CPython's dict-assignment semantics. -/
def dictSet {β : Type u} (l : List (String × β)) (k : String) (v : β) :
    List (String × β) :=
  if dictHas l k then l.map (fun p => if p.1 = k then (k, v) else p)
  else l ++ [(k, v)]

/-- Deletion `del d[k]` on an insertion-ordered dictionary. -/
def dictRemove {β : Type u} : List (String × β) → String → List (String × β)
  | [], _ => []
  | p :: rest, k => if p.1 = k then dictRemove rest k else p :: dictRemove rest k

/-- A stored cache entry: the dict
`{'data': data, 'timestamp': timestamp, 'ttl': ttl}` of
`cache_service.py`.  The wall clock is modelled by integers. -/
structure CacheEntry (α : Type u) where
  data : α
  timestamp : Int
  ttl : Int
deriving Repr, DecidableEq

/-- The state of `CacheService`: the `_cache` dict plus the configuration
loaded in `__init__` (`default_ttl`, `screen_cache_config`). -/
structure CacheService (α : Type u) where
  cache : List (String × CacheEntry α)
  default_ttl : Int
  screen_cache_config : List (String × Int)
deriving Repr, DecidableEq

/-- `CacheService.get_ttl_for_screen`:
`self.screen_cache_config.get(screen_type, self.default_ttl)`. -/
def CacheService.get_ttl_for_screen {α : Type u} (svc : CacheService α)
    (screen_type : String) : Int :=
  (dictGet? svc.screen_cache_config screen_type).getD svc.default_ttl

/-- `CacheService.get`: returns the cached data if present and not expired;
an entry found expired (`now - timestamp > ttl`) is deleted as a side
effect and `None` is returned.  The returned pair is (new service state,
result). -/
def CacheService.get {α : Type u} (svc : CacheService α) (key : String)
    (now : Int) : CacheService α × Option α :=
  match dictGet? svc.cache key with
  | none => (svc, none)
  | some cache_entry =>
    if now - cache_entry.timestamp > cache_entry.ttl then
      ({svc with cache := dictRemove svc.cache key}, none)
    else
      (svc, some cache_entry.data)

/-- `CacheService.set`: stores `{'data': data, 'timestamp': now, 'ttl': ttl}`
under `key`, using `default_ttl` when `ttl is None`. -/
def CacheService.set {α : Type u} (svc : CacheService α) (key : String)
    (data : α) (ttl? : Option Int) (now : Int) : CacheService α :=
  let ttl := ttl?.getD svc.default_ttl
  {svc with cache := dictSet svc.cache key ⟨data, now, ttl⟩}

/-- `CacheService.invalidate`: removes `key` if present, no-op otherwise. -/
def CacheService.invalidate {α : Type u} (svc : CacheService α)
    (key : String) : CacheService α :=
  if dictHas svc.cache key then {svc with cache := dictRemove svc.cache key}
  else svc

/-- `CacheService.clear`: empties `_cache`.  The Python method computes
`cache_size` only to log it and returns `None`; the second component of
the result models that (absent) return value. -/
def CacheService.clear {α : Type u} (svc : CacheService α) :
    CacheService α × Option Nat :=
  ({svc with cache := []}, none)

/-- The dict returned by `CacheService.get_cache_stats`. -/
structure CacheStats where
  total_entries : Nat
  valid_entries : Nat
  expired_entries : Nat
  default_ttl : Int
  screen_configs : List (String × Int)
deriving Repr, DecidableEq

/-- `CacheService.get_cache_stats`: one pass over `_cache` classifying each
entry as valid (`now - timestamp <= ttl`) or expired; the Python method
only reads `self._cache`, so it is modelled as a pure function of the
service state and the clock. -/
def CacheService.get_cache_stats {α : Type u} (svc : CacheService α)
    (now : Int) : CacheStats :=
  let counts := svc.cache.foldl
    (fun (vc : Nat × Nat) p =>
      if now - p.2.timestamp ≤ p.2.ttl then (vc.1 + 1, vc.2) else (vc.1, vc.2 + 1))
    (0, 0)
  { total_entries := svc.cache.length
    valid_entries := counts.1
    expired_entries := counts.2
    default_ttl := svc.default_ttl
    screen_configs := svc.screen_cache_config }

/-- The expiry test `current_time - entry['timestamp'] > entry['ttl']`. -/
def isExpired {α : Type u} (now : Int) (e : CacheEntry α) : Bool :=
  decide (now - e.timestamp > e.ttl)

/-- `CacheService.cleanup_expired`: reads the clock once, collects the keys
of all expired entries, deletes them, and returns (new state, number of
entries removed). -/
def CacheService.cleanup_expired {α : Type u} (svc : CacheService α)
    (now : Int) : CacheService α × Nat :=
  let expired_keys := (svc.cache.filter (fun p => isExpired now p.2)).map Prod.fst
  let cache2 := expired_keys.foldl (fun c k => dictRemove c k) svc.cache
  ({svc with cache := cache2}, expired_keys.length)

/-- The whitespace test of Python's `str.strip()`, for the ASCII
whitespace characters. -/
def isPySpace (c : Char) : Bool :=
  c = ' ' || c = '\t' || c = '\n' || c = '\r' || c = '\x0b' || c = '\x0c'

/-- Python's `s.strip()`: drop leading and trailing whitespace. -/
def pyStrip (cs : List Char) : List Char :=
  ((cs.dropWhile isPySpace).reverse.dropWhile isPySpace).reverse

/-- Python's `s.split(sep)` with a one-character separator and no
maxsplit, on the character list of `s` (second argument: accumulator of
the current piece, reversed).  `"".split(',') = [""]`. -/
def pySplit (sep : Char) : List Char → List Char → List (List Char)
  | [], acc => [acc.reverse]
  | c :: cs, acc =>
    if c = sep then acc.reverse :: pySplit sep cs []
    else pySplit sep cs (c :: acc)

/-- Digit run of a Python integer literal, after the optional sign:
decimal digits with single underscores allowed strictly between digits
(`int("1_0")` is legal in Python 3; `int("_1")`, `int("1_")` and
`int("1__0")` are not). -/
def pyDigitsAux : List Char → Bool
  | [] => true
  | '_' :: c :: cs => c.isDigit && pyDigitsAux cs
  | ['_'] => false
  | c :: cs => c.isDigit && pyDigitsAux cs

/-- Whole digit run: nonempty and starting with a digit. -/
def pyDigits : List Char → Bool
  | [] => false
  | c :: cs => c.isDigit && pyDigitsAux cs

/-- Numeric value of a digit run (underscores removed). -/
def pyDigitsVal (cs : List Char) : Nat :=
  (cs.filter (fun c => c ≠ '_')).foldl (fun n c => n * 10 + (c.toNat - 48)) 0

/-- Python's `int(s)` on a decimal string: strips whitespace, accepts an
optional sign and a digit run; `none` models the `ValueError` raised on
anything else. -/
def pyInt? (cs : List Char) : Option Int :=
  match pyStrip cs with
  | '-' :: rest => if pyDigits rest then some (-(pyDigitsVal rest : Int)) else none
  | '+' :: rest => if pyDigits rest then some (pyDigitsVal rest : Int) else none
  | rest => if pyDigits rest then some (pyDigitsVal rest : Int) else none

/-- Python's `s.split(':', 1)` in the case `':' in s`: the part before the
first colon and the part after it. -/
def splitColon1 (cs : List Char) : List Char × List Char :=
  (cs.takeWhile (fun c => c ≠ ':'), (cs.dropWhile (fun c => c ≠ ':')).drop 1)

/-- The `for item in cache_per_screen.split(',')` loop of
`CacheService._parse_screen_cache_config`, with its surrounding
`try/except`: an item without a colon is skipped; an item whose TTL part
fails `int()` raises `ValueError`, which the `except` around the *whole
loop* catches — the loop aborts and the config built so far is returned
(`screen_name, ttl_str = item.strip().split(':', 1)`;
`config[screen_name.strip()] = int(ttl_str.strip())`). -/
def parseScreenCacheLoop : List (List Char) → List (String × Int) → List (String × Int)
  | [], config => config
  | item :: rest, config =>
    if item.contains ':' then
      let parts := splitColon1 (pyStrip item)
      match pyInt? parts.2 with
      | some n => parseScreenCacheLoop rest (dictSet config ⟨pyStrip parts.1⟩ n)
      | none => config
    else parseScreenCacheLoop rest config

/-- `CacheService._parse_screen_cache_config`, as a function of the
`CACHE_PER_SCREEN` environment string (format `"screen1:60,screen2:120"`;
an empty string yields the empty config). -/
def parse_screen_cache_config (cache_per_screen : String) : List (String × Int) :=
  if cache_per_screen ≠ "" then
    parseScreenCacheLoop (pySplit ',' cache_per_screen.toList []) []
  else []

/-- The environment of `CryptoService.get_btc_prices`: the outcome of each
of the three fetchers (`None` models a failed fetch; the fetchers never
return a falsy non-`None` value, every successful result is a non-empty
dict), plus the copy-and-annotate step applied to a cache hit
(`cached_data.copy()` with `timestamp` suffixed `" (cached)"`). -/
structure CryptoEnv (α : Type u) where
  coingecko : Option α
  coinmarketcap : Option α
  binance : Option α
  mark_cached : α → α

/-- The `sources` dict of `CryptoService.get_btc_prices`, in insertion
order. -/
def CryptoEnv.sources {α : Type u} (env : CryptoEnv α) : List (String × Option α) :=
  [("coingecko", env.coingecko), ("coinmarketcap", env.coinmarketcap),
   ("binance", env.binance)]

/-- The fallback loop of `CryptoService.get_btc_prices`
(`for source_name, source_func in sources.items(): ...`): the first
non-preferred source with a truthy result is cached under
`btc_prices_{source_name}_fallback` with half the resolved TTL
(`// 2`, Python floor division) and returned. -/
def btcFallbackLoop {α : Type u} (svc : CacheService α) (preferred_source : String)
    (now : Int) : List (String × Option α) → CacheService α × Option α
  | [] => (svc, none)
  | (source_name, fetched) :: rest =>
    if source_name = preferred_source then
      btcFallbackLoop svc preferred_source now rest
    else
      match fetched with
      | some result =>
        let ttl := Int.fdiv (svc.get_ttl_for_screen "bitcoin_prices") 2
        let fallback_cache_key := "btc_prices_" ++ source_name ++ "_fallback"
        (svc.set fallback_cache_key result (some ttl) now, some result)
      | none => btcFallbackLoop svc preferred_source now rest

/-- `CryptoService.get_btc_prices`: cache lookup under
`btc_prices_{preferred_source}` (a hit is returned with the cached-copy
annotation), then the preferred source (a truthy result is cached with
the resolved TTL for `"bitcoin_prices"`), then the fallback loop. -/
def get_btc_prices {α : Type u} (svc : CacheService α) (env : CryptoEnv α)
    (preferred_source : String) (now : Int) : CacheService α × Option α :=
  let cache_key := "btc_prices_" ++ preferred_source
  let screen_type := "bitcoin_prices"
  let g := svc.get cache_key now
  match g.2 with
  | some cached_data => (g.1, some (env.mark_cached cached_data))
  | none =>
    let svc1 := g.1
    match dictGet? env.sources preferred_source with
    | some (some result) =>
      let ttl := svc1.get_ttl_for_screen screen_type
      (svc1.set cache_key result (some ttl) now, some result)
    | some none => btcFallbackLoop svc1 preferred_source now env.sources
    | none => btcFallbackLoop svc1 preferred_source now env.sources

/-- Rendered bitmaps are opaque to the refresh engine (it never inspects
pixels); an integer token stands for a PIL image. -/
abbrev Image : Type := Nat

/-- The part of a screen-data dict the refresh engine reads:
`screen_data.get('screen_number', 1)` and
`screen_data.get('total_screens', 1)` (absent keys default to 1), plus an
opaque payload consumed only by the renderer. -/
structure ScreenData where
  screen_number : Option Nat
  total_screens : Option Nat
  payload : Nat
deriving Repr, DecidableEq

/-- The refresh-bookkeeping attributes of `DisplayService`.
`fast_refresh_initialized` is `Option Bool` because `__init__` never sets
that attribute: `none` models the unset attribute (whose access raises
`AttributeError`), `some b` the attribute holding `b`. -/
structure DisplayState where
  refresh_count : Nat
  partial_refresh_initialized : Bool
  last_screen_number : Option Nat
  base_image : Option Image
  current_cycle : Nat
  fast_refresh_initialized : Option Bool
deriving Repr, DecidableEq

/-- The attribute values set at the end of `DisplayService.__init__`. -/
def initial_display_state : DisplayState :=
  { refresh_count := 0
    partial_refresh_initialized := false
    last_screen_number := none
    base_image := none
    current_cycle := 0
    fast_refresh_initialized := none }

/-- What a single display call did: a full hardware repaint
(`epd.init(); epd.display(...)`), an incremental partial repaint
(`epd.displayPartial(...)`), a fast refresh (`epd.display_fast(...)`), a
simulation-mode file save, a skipped frame (falsy `screen_data`), or a
propagated exception. -/
inductive RefreshAction where
  | FullRepaint
  | PartialRepaint
  | FastRefresh
  | SimSaved
  | Skipped
  | Raised
deriving Repr, DecidableEq

/-- The cycle-boundary test of `display_screen_with_smart_refresh`:
`self.last_screen_number is not None and screen_num == 1 and
self.last_screen_number == total_screens`. -/
def cycle_completed (s : DisplayState) (screen_num total_screens : Nat) : Bool :=
  match s.last_screen_number with
  | none => false
  | some last => screen_num == 1 && last == total_screens

/-- `DisplayService.display_screen_with_smart_refresh`.  `render` stands
for `self.create_display_image`; falsy `screen_data` returns immediately
with no state change.  In hardware mode: a completed cycle triggers a
full repaint, a cycle-counter increment and a baseline re-capture; an
uninitialized partial baseline triggers a full repaint and baseline
capture; otherwise a partial repaint.  Both non-skip branches end with
`last_screen_number = screen_num` and `refresh_count += 1`. -/
def display_screen_with_smart_refresh (render : ScreenData → Image)
    (simulation_mode : Bool) (s : DisplayState) (screen_data : Option ScreenData) :
    DisplayState × RefreshAction :=
  match screen_data with
  | none => (s, RefreshAction.Skipped)
  | some sd =>
    let image := render sd
    let screen_num := sd.screen_number.getD 1
    let total_screens := sd.total_screens.getD 1
    if simulation_mode then
      let s1 :=
        if cycle_completed s screen_num total_screens then
          {s with current_cycle := s.current_cycle + 1}
        else s
      ({s1 with last_screen_number := some screen_num,
                refresh_count := s1.refresh_count + 1}, RefreshAction.SimSaved)
    else
      if cycle_completed s screen_num total_screens then
        ({s with current_cycle := s.current_cycle + 1,
                 base_image := some image,
                 partial_refresh_initialized := true,
                 last_screen_number := some screen_num,
                 refresh_count := s.refresh_count + 1}, RefreshAction.FullRepaint)
      else if !s.partial_refresh_initialized || s.base_image.isNone then
        ({s with base_image := some image,
                 partial_refresh_initialized := true,
                 last_screen_number := some screen_num,
                 refresh_count := s.refresh_count + 1}, RefreshAction.FullRepaint)
      else
        ({s with last_screen_number := some screen_num,
                 refresh_count := s.refresh_count + 1}, RefreshAction.PartialRepaint)

/-- `DisplayService.display_image`.  Simulation mode saves a file and
touches no refresh state.  In hardware mode `refresh_count` is
incremented first; every 20th display (`refresh_count % 20 == 0`) is a
full refresh that re-enters fast mode; otherwise the fast path runs —
reading the never-initialized `fast_refresh_initialized` attribute
raises `AttributeError` (caught, logged and re-raised), modelled as
`Raised`. -/
def display_image (simulation_mode : Bool) (s : DisplayState) (_image : Image) :
    DisplayState × RefreshAction :=
  if simulation_mode then (s, RefreshAction.SimSaved)
  else
    let s1 := {s with refresh_count := s.refresh_count + 1}
    if s1.refresh_count % 20 == 0 then
      ({s1 with fast_refresh_initialized := some true}, RefreshAction.FullRepaint)
    else
      match s1.fast_refresh_initialized with
      | none => (s1, RefreshAction.Raised)
      | some b =>
        if !b then
          ({s1 with fast_refresh_initialized := some true}, RefreshAction.FastRefresh)
        else (s1, RefreshAction.FastRefresh)

/-- Feed a list of frames through `display_screen_with_smart_refresh`,
collecting the per-frame actions. -/
def runFrames (render : ScreenData → Image) (simulation_mode : Bool) :
    DisplayState → List (Option ScreenData) → DisplayState × List RefreshAction
  | s, [] => (s, [])
  | s, f :: fs =>
    let r := display_screen_with_smart_refresh render simulation_mode s f
    let rest := runFrames render simulation_mode r.1 fs
    (rest.1, r.2 :: rest.2)

/-- Call `display_image` `n` times on the same image, collecting the
per-call actions. -/
def runImages (simulation_mode : Bool) (image : Image) :
    DisplayState → Nat → DisplayState × List RefreshAction
  | s, 0 => (s, [])
  | s, n + 1 =>
    let r := display_image simulation_mode s image
    let rest := runImages simulation_mode image r.1 n
    (rest.1, r.2 :: rest.2)

/-- A concrete renderer for closed counterexamples and witnesses. -/
def renderZero : ScreenData → Image := fun _ => 0

/-- The `(screenIndex, totalScreens)` frame of a cycle, with non-null
screen data. -/
def frameOf (i total : Nat) : Option ScreenData :=
  some { screen_number := some i, total_screens := some total, payload := 0 }

/-- Twenty consecutive frames of a 5-screen cycle:
`(1,5),(2,5),...,(5,5),(1,5),...` — none of positions 2–5 or 7–10 etc.
is a cycle boundary; the 20th frame is `(5,5)`. -/
def frames20 : List (Option ScreenData) :=
  (List.range 20).map (fun i => frameOf (i % 5 + 1) 5)

/-- The action component of `display_screen_with_smart_refresh` on non-null
screen data, as a function of the branch conditions only (the branch
taken never depends on `refresh_count`, `current_cycle` or the images). -/
def smart_action_of (simulation_mode : Bool) (s : DisplayState)
    (screen_num total_screens : Nat) : RefreshAction :=
  if simulation_mode then RefreshAction.SimSaved
  else if cycle_completed s screen_num total_screens then RefreshAction.FullRepaint
  else if !s.partial_refresh_initialized || s.base_image.isNone then
    RefreshAction.FullRepaint
  else RefreshAction.PartialRepaint

/-- A mid-cycle state right before the boundary frame of a 3-screen
cycle: the previous frame displayed screen 3 of 3. -/
def boundaryState : DisplayState :=
  { refresh_count := 3
    partial_refresh_initialized := true
    last_screen_number := some 3
    base_image := some 0
    current_cycle := 0
    fast_refresh_initialized := none }

/-- The boundary frame `(1, 3)`. -/
def boundaryFrame : ScreenData :=
  { screen_number := some 1, total_screens := some 3, payload := 0 }

/-! ## Association-list (Python dict) lemmas -/

theorem dictHas_eq_false_iff {β : Type u} (l : List (String × β)) (k : String) :
    dictHas l k = false ↔ ∀ p ∈ l, p.1 ≠ k := by
  induction l with
  | nil => simp [dictHas]
  | cons p rest ih => by_cases hp : p.1 = k <;> simp [dictHas, hp, ih]

theorem dictGet?_map_replace {β : Type u} (l : List (String × β)) (k : String)
    (v : β) (h : dictHas l k = true) :
    dictGet? (l.map (fun p => if p.1 = k then (k, v) else p)) k = some v := by
  induction l with
  | nil => simp [dictHas] at h
  | cons p rest ih =>
    by_cases hp : p.1 = k
    · simp [dictGet?, hp]
    · have h' : dictHas rest k = true := by simpa [dictHas, hp] using h
      simp [dictGet?, hp, ih h']

theorem dictGet?_append_right {β : Type u} (l : List (String × β)) (k : String)
    (v : β) (h : dictHas l k = false) :
    dictGet? (l ++ [(k, v)]) k = some v := by
  induction l with
  | nil => simp [dictGet?]
  | cons p rest ih =>
    by_cases hp : p.1 = k
    · simp [dictHas, hp] at h
    · have h' : dictHas rest k = false := by simpa [dictHas, hp] using h
      simp [dictGet?, hp, ih h']

theorem dictGet?_dictSet_self {β : Type u} (l : List (String × β)) (k : String)
    (v : β) : dictGet? (dictSet l k v) k = some v := by
  unfold dictSet
  by_cases h : dictHas l k = true
  · simp only [h, if_true]
    exact dictGet?_map_replace l k v h
  · have h' : dictHas l k = false := by simpa using h
    simp only [h', Bool.false_eq_true, if_false]
    exact dictGet?_append_right l k v h'

theorem dictGet?_dictRemove_self {β : Type u} (l : List (String × β)) (k : String) :
    dictGet? (dictRemove l k) k = none := by
  induction l with
  | nil => rfl
  | cons p rest ih => by_cases hp : p.1 = k <;> simp [dictRemove, dictGet?, hp, ih]

theorem dictHas_eq_isSome {β : Type u} (l : List (String × β)) (k : String) :
    dictHas l k = (dictGet? l k).isSome := by
  induction l with
  | nil => rfl
  | cons p rest ih => by_cases hp : p.1 = k <;> simp [dictHas, dictGet?, hp, ih]

theorem dictGet?_mem {β : Type u} {l : List (String × β)} {k : String} {v : β}
    (h : dictGet? l k = some v) : (k, v) ∈ l := by
  induction l with
  | nil => cases h
  | cons p rest ih =>
    by_cases hp : p.1 = k
    · simp only [dictGet?, if_pos hp] at h
      have : (k, v) = p := by
        cases p
        simp only [Option.some.injEq] at h
        simp_all
      rw [this]
      exact List.mem_cons_self _ _
    · simp only [dictGet?, if_neg hp] at h
      exact List.mem_cons_of_mem _ (ih h)

theorem mem_dictRemove {β : Type u} (l : List (String × β)) (k : String)
    (x : String × β) : x ∈ dictRemove l k ↔ x ∈ l ∧ x.1 ≠ k := by
  induction l with
  | nil => simp [dictRemove]
  | cons p rest ih =>
    by_cases hp : p.1 = k
    · simp only [dictRemove, if_pos hp, ih]
      constructor
      · rintro ⟨hm, hk⟩
        exact ⟨List.mem_cons_of_mem _ hm, hk⟩
      · rintro ⟨hm, hk⟩
        rcases List.mem_cons.1 hm with rfl | hm'
        · exact absurd hp hk
        · exact ⟨hm', hk⟩
    · simp only [dictRemove, if_neg hp]
      constructor
      · intro hx
        rcases List.mem_cons.1 hx with rfl | hx'
        · exact ⟨List.mem_cons_self _ _, hp⟩
        · rcases ih.1 hx' with ⟨hm, hk⟩
          exact ⟨List.mem_cons_of_mem _ hm, hk⟩
      · rintro ⟨hm, hk⟩
        rcases List.mem_cons.1 hm with rfl | hm'
        · exact List.mem_cons_self _ _
        · exact List.mem_cons_of_mem _ (ih.2 ⟨hm', hk⟩)

theorem dictRemove_eq_filter {β : Type u} (l : List (String × β)) (k : String) :
    dictRemove l k = l.filter (fun p => decide (p.1 ≠ k)) := by
  induction l with
  | nil => rfl
  | cons p rest ih =>
    by_cases hp : p.1 = k <;> simp [dictRemove, List.filter_cons, hp, ih]

theorem length_dictRemove_add_countP {β : Type u} (l : List (String × β))
    (k : String) :
    (dictRemove l k).length + l.countP (fun p => decide (p.1 = k)) = l.length := by
  induction l with
  | nil => rfl
  | cons p rest ih =>
    by_cases hp : p.1 = k <;>
      simp [dictRemove, List.countP_cons, hp] <;> omega

theorem countP_key_eq_zero {β : Type u} (l : List (String × β)) (k : String)
    (h : ∀ p ∈ l, p.1 ≠ k) : l.countP (fun p => decide (p.1 = k)) = 0 := by
  induction l with
  | nil => rfl
  | cons p rest ih =>
    have hp : p.1 ≠ k := h p (List.mem_cons_self _ _)
    have h0 := ih (fun q hq => h q (List.mem_cons_of_mem _ hq))
    simp [List.countP_cons, hp, h0]

theorem countP_key_eq_one {β : Type u} (l : List (String × β)) (k : String)
    (hn : (l.map Prod.fst).Nodup) (hh : dictHas l k = true) :
    l.countP (fun p => decide (p.1 = k)) = 1 := by
  induction l with
  | nil => simp [dictHas] at hh
  | cons p rest ih =>
    simp only [List.map_cons, List.nodup_cons] at hn
    by_cases hp : p.1 = k
    · have h0 : rest.countP (fun p => decide (p.1 = k)) = 0 := by
        refine countP_key_eq_zero rest k (fun q hq hqk => ?_)
        exact hn.1 (by rw [hp, ← hqk]; exact List.mem_map_of_mem Prod.fst hq)
      simp [List.countP_cons, hp, h0]
    · have hh' : dictHas rest k = true := by simpa [dictHas, hp] using hh
      simp [List.countP_cons, hp, ih hn.2 hh']

theorem keys_map_replace {β : Type u} (l : List (String × β)) (k : String)
    (v : β) :
    (l.map (fun p => if p.1 = k then (k, v) else p)).map Prod.fst
      = l.map Prod.fst := by
  induction l with
  | nil => rfl
  | cons p rest ih => by_cases hp : p.1 = k <;> simp [hp, ih]

theorem nodup_keys_dictSet {β : Type u} (l : List (String × β)) (k : String)
    (v : β) (hn : (l.map Prod.fst).Nodup) :
    ((dictSet l k v).map Prod.fst).Nodup := by
  unfold dictSet
  by_cases hhas : dictHas l k = true
  · simp only [hhas, if_true]
    rw [keys_map_replace]
    exact hn
  · have h' : dictHas l k = false := by simpa using hhas
    simp only [h', Bool.false_eq_true, if_false, List.map_append]
    have hk : k ∉ l.map Prod.fst := by
      intro hmem
      rcases List.mem_map.1 hmem with ⟨p, hp, hpk⟩
      exact ((dictHas_eq_false_iff l k).1 h' p hp) hpk
    simp [List.nodup_append, hn, hk]

theorem nodup_keys_inj {β : Type u} {l : List (String × β)} {p q : String × β}
    (hn : (l.map Prod.fst).Nodup) (hp : p ∈ l) (hq : q ∈ l) (hk : p.1 = q.1) :
    p = q := by
  induction l with
  | nil => cases hp
  | cons a rest ih =>
    simp only [List.map_cons, List.nodup_cons] at hn
    rcases List.mem_cons.1 hp with rfl | hp' <;> rcases List.mem_cons.1 hq with rfl | hq'
    · rfl
    · exact absurd (by rw [hk]; exact List.mem_map_of_mem Prod.fst hq') hn.1
    · exact absurd (by rw [← hk]; exact List.mem_map_of_mem Prod.fst hp') hn.1
    · exact ih hn.2 hp' hq'

theorem filter_ext_mem {γ : Type u} (l : List γ) (p q : γ → Bool)
    (h : ∀ x ∈ l, p x = q x) : l.filter p = l.filter q := by
  induction l with
  | nil => rfl
  | cons a rest ih =>
    have ha := h a (List.mem_cons_self _ _)
    have ih' := ih (fun x hx => h x (List.mem_cons_of_mem _ hx))
    cases hq : q a <;> simp [List.filter_cons, ha, hq, ih']

theorem foldl_dictRemove_filter {β : Type u} (ks : List String)
    (l : List (String × β)) (p : String × β → Bool) :
    ((ks.foldl (fun c k => dictRemove c k) l).filter p)
      = l.filter (fun x => p x && decide (x.1 ∉ ks)) := by
  induction ks generalizing l with
  | nil => simp
  | cons k ks ih =>
    simp only [List.foldl_cons]
    rw [ih (dictRemove l k), dictRemove_eq_filter, List.filter_filter]
    refine filter_ext_mem _ _ _ (fun x _ => ?_)
    by_cases h1 : x.1 = k <;> by_cases h2 : x.1 ∈ ks <;> simp [h1, h2]

theorem foldl_dictRemove_eq_filter {β : Type u} (ks : List String)
    (l : List (String × β)) :
    ks.foldl (fun c k => dictRemove c k) l
      = l.filter (fun x => decide (x.1 ∉ ks)) := by
  have h := foldl_dictRemove_filter ks l (fun _ => true)
  simpa using h

/-! ## Cache statistics lemmas -/

theorem stats_foldl {α : Type} (now : Int) (l : List (String × CacheEntry α))
    (a b : Nat) :
    l.foldl (fun (vc : Nat × Nat) p =>
        if now - p.2.timestamp ≤ p.2.ttl then (vc.1 + 1, vc.2)
        else (vc.1, vc.2 + 1)) (a, b)
      = (a + l.countP (fun p => decide (now - p.2.timestamp ≤ p.2.ttl)),
         b + l.countP (fun p => !decide (now - p.2.timestamp ≤ p.2.ttl))) := by
  induction l generalizing a b with
  | nil => simp
  | cons p rest ih =>
    simp only [List.foldl_cons, List.countP_cons]
    by_cases hp : now - p.2.timestamp ≤ p.2.ttl
    · rw [if_pos hp, ih, decide_eq_true hp]
      simp only [Bool.not_true, Bool.false_eq_true, if_true, if_false, ite_true,
        ite_false, Prod.mk.injEq]
      constructor <;> omega
    · rw [if_neg hp, ih, decide_eq_false hp]
      simp only [Bool.not_false, Bool.false_eq_true, if_true, if_false, ite_true,
        ite_false, Prod.mk.injEq]
      constructor <;> omega

theorem length_eq_countP_valid_add {α : Type} (now : Int)
    (l : List (String × CacheEntry α)) :
    l.length = l.countP (fun p => decide (now - p.2.timestamp ≤ p.2.ttl))
             + l.countP (fun p => !decide (now - p.2.timestamp ≤ p.2.ttl)) := by
  induction l with
  | nil => rfl
  | cons p rest ih =>
    simp only [List.length_cons, List.countP_cons]
    by_cases hp : now - p.2.timestamp ≤ p.2.ttl
    · rw [decide_eq_true hp]
      simp only [Bool.not_true, Bool.false_eq_true, if_true, if_false, ite_true,
        ite_false]
      omega
    · rw [decide_eq_false hp]
      simp only [Bool.not_false, Bool.false_eq_true, if_true, if_false, ite_true,
        ite_false]
      omega

/-- `CacheService.get` never touches the TTL configuration. -/
theorem get_ttl_for_screen_after_get {α : Type} (svc : CacheService α)
    (key : String) (now : Int) (c : String) :
    ((svc.get key now).1).get_ttl_for_screen c = svc.get_ttl_for_screen c := by
  unfold CacheService.get
  cases h : dictGet? svc.cache key with
  | none => rfl
  | some e =>
    by_cases he : now - e.timestamp > e.ttl <;>
      simp [he, CacheService.get_ttl_for_screen]

/-- The action component of `display_screen_with_smart_refresh` on non-null
screen data depends only on the branch conditions. -/
theorem smart_refresh_action_eq (render : ScreenData → Image)
    (simulation_mode : Bool) (s : DisplayState) (sd : ScreenData) :
    (display_screen_with_smart_refresh render simulation_mode s (some sd)).2
      = smart_action_of simulation_mode s (sd.screen_number.getD 1)
          (sd.total_screens.getD 1) := by
  by_cases hsim : simulation_mode = true <;>
    by_cases hc : cycle_completed s (sd.screen_number.getD 1) (sd.total_screens.getD 1) = true <;>
    by_cases hb : (!s.partial_refresh_initialized || s.base_image.isNone) = true <;>
    simp [display_screen_with_smart_refresh, smart_action_of, hsim, hc, hb]

/-! ## Claims -/

/-- C1: cache TTL correctness.  For every key `k`, value `v` and
`ttl > 0`, `set(k, v, ttl)` followed immediately by `get(k)` returns `v`;
and once the clock has advanced strictly beyond `ttl` seconds since the
`set`, with no intervening `set` for `k`, `get(k)` returns absent,
deletes the entry (no binding for `k` remains in the store), and
`stats().total_entries` drops by one. -/
theorem cache_ttl_correctness {α : Type} (svc : CacheService α) (k : String)
    (v : α) (ttl now now2 : Int)
    (hnodup : (svc.cache.map Prod.fst).Nodup)
    (httl : 0 < ttl) (hlate : ttl < now2 - now) :
    ((svc.set k v (some ttl) now).get k now).2 = some v
    ∧ ((svc.set k v (some ttl) now).get k now2).2 = none
    ∧ dictGet? (((svc.set k v (some ttl) now).get k now2).1).cache k = none
    ∧ ((((svc.set k v (some ttl) now).get k now2).1.get_cache_stats now2).total_entries + 1
        = ((svc.set k v (some ttl) now).get_cache_stats now2).total_entries) := by
  have hcache : (svc.set k v (some ttl) now).cache
      = dictSet svc.cache k ⟨v, now, ttl⟩ := rfl
  have hget : dictGet? (svc.set k v (some ttl) now).cache k
      = some ⟨v, now, ttl⟩ := by
    rw [hcache]
    exact dictGet?_dictSet_self _ _ _
  have hfresh : ¬ (now - (⟨v, now, ttl⟩ : CacheEntry α).timestamp
      > (⟨v, now, ttl⟩ : CacheEntry α).ttl) := by
    simp only []
    omega
  have hstale : now2 - (⟨v, now, ttl⟩ : CacheEntry α).timestamp
      > (⟨v, now, ttl⟩ : CacheEntry α).ttl := by
    simp only []
    omega
  have hnodup1 : ((svc.set k v (some ttl) now).cache.map Prod.fst).Nodup := by
    rw [hcache]
    exact nodup_keys_dictSet _ _ _ hnodup
  have hhas1 : dictHas (svc.set k v (some ttl) now).cache k = true := by
    rw [dictHas_eq_isSome, hget]
    rfl
  refine ⟨?_, ?_, ?_, ?_⟩
  · simp [CacheService.get, hget, hfresh]
    rw [if_neg (show ¬ (ttl < 0) by omega)]
  · simp [CacheService.get, hget, hstale]
  · simp [CacheService.get, hget, hstale]
    exact dictGet?_dictRemove_self _ _
  · simp only [CacheService.get, hget]
    rw [if_pos hstale]
    simp only [CacheService.get_cache_stats]
    have := length_dictRemove_add_countP (svc.set k v (some ttl) now).cache k
    have h1 := countP_key_eq_one (svc.set k v (some ttl) now).cache k hnodup1 hhas1
    omega

/-- Witness for C1 at a concrete input: empty store, `set "k" 7` with
TTL 10 at time 0, read back at times 0 and 11. -/
theorem cache_ttl_correctness_witness :
    (((⟨[], 60, []⟩ : CacheService Nat).cache.map Prod.fst).Nodup)
    ∧ (0 : Int) < 10
    ∧ (10 : Int) < 11 - 0
    ∧ ((((⟨[], 60, []⟩ : CacheService Nat).set "k" 7 (some 10) 0).get "k" 0).2 = some 7
        ∧ (((⟨[], 60, []⟩ : CacheService Nat).set "k" 7 (some 10) 0).get "k" 11).2 = none
        ∧ dictGet? ((((⟨[], 60, []⟩ : CacheService Nat).set "k" 7 (some 10) 0).get
            "k" 11).1).cache "k" = none
        ∧ (((((⟨[], 60, []⟩ : CacheService Nat).set "k" 7 (some 10) 0).get
              "k" 11).1.get_cache_stats 11).total_entries + 1
            = (((⟨[], 60, []⟩ : CacheService Nat).set "k" 7 (some 10) 0).get_cache_stats
              11).total_entries)) :=
  ⟨by decide, by decide, by decide,
   cache_ttl_correctness (⟨[], 60, []⟩ : CacheService Nat) "k" 7 10 0 11
     (by decide) (by decide) (by decide)⟩

/-- C2: cycle-boundary full repaint.  From the engine's initial state in
a 3-screen cycle, the frames `(1,3),(2,3),(3,3),(1,3)` (all with
non-null screen data) produce the actions
`FullRepaint, PartialRepaint, PartialRepaint, FullRepaint`; the action
is a full repaint exactly when the current index is 1 and the previous
frame's index equals the total screen count, or when no partial baseline
exists yet; and on the cycle boundary the cycle counter is incremented
and the baseline frame is re-captured from the rendered frame. -/
theorem cycle_boundary_full_repaint (render : ScreenData → Image) :
    ((runFrames render false initial_display_state
        [frameOf 1 3, frameOf 2 3, frameOf 3 3, frameOf 1 3]).2
      = [RefreshAction.FullRepaint, RefreshAction.PartialRepaint,
         RefreshAction.PartialRepaint, RefreshAction.FullRepaint])
    ∧ (∀ (s : DisplayState) (sd : ScreenData),
        (display_screen_with_smart_refresh render false s (some sd)).2
            = RefreshAction.FullRepaint
          ↔ (cycle_completed s (sd.screen_number.getD 1) (sd.total_screens.getD 1) = true
              ∨ s.partial_refresh_initialized = false
              ∨ s.base_image = none))
    ∧ (∀ (s : DisplayState) (sd : ScreenData),
        cycle_completed s (sd.screen_number.getD 1) (sd.total_screens.getD 1) = true →
          (display_screen_with_smart_refresh render false s (some sd)).1.current_cycle
              = s.current_cycle + 1
          ∧ (display_screen_with_smart_refresh render false s (some sd)).1.base_image
              = some (render sd)
          ∧ (display_screen_with_smart_refresh render false s (some sd)).2
              = RefreshAction.FullRepaint) := by
  refine ⟨?_, ?_, ?_⟩
  · simp [runFrames, display_screen_with_smart_refresh, cycle_completed,
      initial_display_state, frameOf]
  · intro s sd
    by_cases hc : cycle_completed s (sd.screen_number.getD 1) (sd.total_screens.getD 1) = true
    · simp [display_screen_with_smart_refresh, hc]
    · by_cases hb : (!s.partial_refresh_initialized || s.base_image.isNone) = true
      · have hb2 := hb
        simp only [Bool.or_eq_true, Bool.not_eq_true', Option.isNone_iff_eq_none] at hb2
        simp [display_screen_with_smart_refresh, hc, hb, hb2]
      · have hb2 := hb
        simp only [Bool.or_eq_true, Bool.not_eq_true', Option.isNone_iff_eq_none,
          not_or] at hb2
        simp [display_screen_with_smart_refresh, hc, hb, hb2.1, hb2.2]
  · intro s sd hc
    simp [display_screen_with_smart_refresh, hc]

/-- Witness for C2: the concrete frame sequence, and the boundary update
at the state whose previous frame was screen 3 of 3. -/
theorem cycle_boundary_full_repaint_witness :
    ((runFrames renderZero false initial_display_state
        [frameOf 1 3, frameOf 2 3, frameOf 3 3, frameOf 1 3]).2
      = [RefreshAction.FullRepaint, RefreshAction.PartialRepaint,
         RefreshAction.PartialRepaint, RefreshAction.FullRepaint])
    ∧ (cycle_completed boundaryState (boundaryFrame.screen_number.getD 1)
          (boundaryFrame.total_screens.getD 1) = true)
    ∧ ((display_screen_with_smart_refresh renderZero false boundaryState
          (some boundaryFrame)).1.current_cycle = boundaryState.current_cycle + 1
        ∧ (display_screen_with_smart_refresh renderZero false boundaryState
            (some boundaryFrame)).1.base_image = some (renderZero boundaryFrame)
        ∧ (display_screen_with_smart_refresh renderZero false boundaryState
            (some boundaryFrame)).2 = RefreshAction.FullRepaint) :=
  ⟨(cycle_boundary_full_repaint renderZero).1, by decide,
   (cycle_boundary_full_repaint renderZero).2.2 boundaryState boundaryFrame (by decide)⟩

/-- Counterexample to C3 as stated: in the smart-refresh engine, with a
5-screen cycle, the 20th frame overall produces `PartialRepaint`, not
`FullRepaint`, and the `refresh_count` counter reaches 20 without ever
being reset to 0 — the smart-refresh path has no periodic threshold. -/
theorem periodic_ghost_counterexample :
    (runFrames renderZero false initial_display_state frames20).2.getLast?
        = some RefreshAction.PartialRepaint
    ∧ (runFrames renderZero false initial_display_state frames20).1.refresh_count = 20
    ∧ ¬ ((runFrames renderZero false initial_display_state frames20).2.getLast?
          = some RefreshAction.FullRepaint)
    ∧ ¬ ((runFrames renderZero false initial_display_state frames20).1.refresh_count = 0) := by
  decide

set_option maxRecDepth 4000 in
/-- C3 (amended): the periodic ghost-prevention threshold lives in the
plain display path `display_image`, not in the smart-refresh engine.
The smart-refresh action never depends on `refresh_count`; in hardware
mode `display_image` increments `refresh_count` on every call and pushes
the image as a full repaint exactly when the incremented counter is
divisible by 20 — the counter itself is never reset to 0 (periodicity
comes from the modulo test), so starting from a fast-initialized state
the 20th of 20 consecutive `display_image` calls is the full repaint. -/
theorem periodic_refresh_in_display_image :
    (∀ (render : ScreenData → Image) (simulation_mode : Bool) (s : DisplayState)
        (f : Option ScreenData) (n : Nat),
        (display_screen_with_smart_refresh render simulation_mode
            {s with refresh_count := n} f).2
          = (display_screen_with_smart_refresh render simulation_mode s f).2)
    ∧ (∀ (s : DisplayState) (image : Image),
        ((display_image false s image).2 = RefreshAction.FullRepaint
            ↔ (s.refresh_count + 1) % 20 = 0)
        ∧ (display_image false s image).1.refresh_count = s.refresh_count + 1)
    ∧ ((runImages false 0
          {initial_display_state with fast_refresh_initialized := some true} 20).2
        = List.replicate 19 RefreshAction.FastRefresh ++ [RefreshAction.FullRepaint])
    ∧ ((runImages false 0
          {initial_display_state with fast_refresh_initialized := some true} 20).1.refresh_count
        = 20) := by
  refine ⟨?_, ?_, by decide, by decide⟩
  · intro render simulation_mode s f n
    cases f with
    | none => rfl
    | some sd =>
      rw [smart_refresh_action_eq, smart_refresh_action_eq]
      rfl
  · intro s image
    constructor
    · by_cases h20 : (s.refresh_count + 1) % 20 = 0
      · simp [display_image, h20]
      · cases hf : s.fast_refresh_initialized with
        | none => simp [display_image, h20, hf]
        | some b => cases b <;> simp [display_image, h20, hf]
    · by_cases h20 : (s.refresh_count + 1) % 20 = 0
      · simp [display_image, h20]
      · cases hf : s.fast_refresh_initialized with
        | none => simp [display_image, h20, hf]
        | some b => cases b <;> simp [display_image, h20, hf]

/-- C4: a skipped frame leaves the refresh state unchanged.  Calling the
per-frame display operation with absent screen data performs no display
work, leaves `refresh_count`, `last_screen_number`, `base_image` and
`current_cycle` untouched, and results in the `Skipped` action — a
failed fetch never counts as a displayed frame. -/
theorem skipped_frame_no_state_change (render : ScreenData → Image)
    (simulation_mode : Bool) (s : DisplayState) :
    display_screen_with_smart_refresh render simulation_mode s none
        = (s, RefreshAction.Skipped)
    ∧ (display_screen_with_smart_refresh render simulation_mode s none).1.refresh_count
        = s.refresh_count
    ∧ (display_screen_with_smart_refresh render simulation_mode s none).1.last_screen_number
        = s.last_screen_number
    ∧ (display_screen_with_smart_refresh render simulation_mode s none).1.base_image
        = s.base_image
    ∧ (display_screen_with_smart_refresh render simulation_mode s none).1.current_cycle
        = s.current_cycle
    ∧ (display_screen_with_smart_refresh render simulation_mode s none).2
        = RefreshAction.Skipped :=
  ⟨rfl, rfl, rfl, rfl, rfl, rfl⟩

/-- C5: fallback half-TTL.  When the preferred BTC price source is one of
the three configured sources, its cached value is absent and its fetch
fails, and some non-preferred source succeeds, then the first succeeding
fallback source's result is returned and cached under the distinct key
`btc_prices_{source}_fallback` (different from the preferred-source key
`btc_prices_{preferred}`) with TTL equal to the resolved TTL for the
`bitcoin_prices` category floor-divided by 2 (Python `// 2`). -/
theorem fallback_half_ttl {α : Type} (svc : CacheService α) (env : CryptoEnv α)
    (preferred_source : String) (now : Int)
    (hpref : preferred_source = "coingecko" ∨ preferred_source = "coinmarketcap"
              ∨ preferred_source = "binance")
    (hmiss : (svc.get ("btc_prices_" ++ preferred_source) now).2 = none)
    (hfail : dictGet? env.sources preferred_source = some none)
    (hsome : ∃ q ∈ env.sources, q.1 ≠ preferred_source ∧ q.2.isSome = true) :
    ∃ (name : String) (d : α),
      name ≠ preferred_source
      ∧ (get_btc_prices svc env preferred_source now).2 = some d
      ∧ dictGet? ((get_btc_prices svc env preferred_source now).1).cache
            ("btc_prices_" ++ name ++ "_fallback")
          = some ⟨d, now, Int.fdiv (svc.get_ttl_for_screen "bitcoin_prices") 2⟩
      ∧ "btc_prices_" ++ name ++ "_fallback" ≠ "btc_prices_" ++ preferred_source := by
  have hstep : get_btc_prices svc env preferred_source now
      = btcFallbackLoop ((svc.get ("btc_prices_" ++ preferred_source) now).1)
          preferred_source now env.sources := by
    simp [get_btc_prices, hmiss, hfail]
  have httl : ((svc.get ("btc_prices_" ++ preferred_source) now).1).get_ttl_for_screen
      "bitcoin_prices" = svc.get_ttl_for_screen "bitcoin_prices" :=
    get_ttl_for_screen_after_get svc _ now _
  rcases hpref with hp | hp | hp
  · subst hp
    cases hcmc : env.coinmarketcap with
    | some d =>
      refine ⟨"coinmarketcap", d, by decide, ?_, ?_, by decide⟩
      · rw [hstep]
        simp [CryptoEnv.sources, btcFallbackLoop, hcmc]
      · rw [hstep]
        simp [CryptoEnv.sources, btcFallbackLoop, hcmc, CacheService.set,
          dictGet?_dictSet_self]
        rw [get_ttl_for_screen_after_get]
    | none =>
      have hbin : (env.binance).isSome = true := by
        rcases hsome with ⟨q, hqm, hqne, hqs⟩
        simp only [CryptoEnv.sources, List.mem_cons, List.not_mem_nil, or_false] at hqm
        rcases hqm with rfl | rfl | rfl
        · exact absurd rfl hqne
        · rw [hcmc] at hqs
          simp at hqs
        · exact hqs
      rcases Option.isSome_iff_exists.mp hbin with ⟨d, hbd⟩
      refine ⟨"binance", d, by decide, ?_, ?_, by decide⟩
      · rw [hstep]
        simp [CryptoEnv.sources, btcFallbackLoop, hcmc, hbd]
      · rw [hstep]
        simp [CryptoEnv.sources, btcFallbackLoop, hcmc, hbd, CacheService.set,
          dictGet?_dictSet_self]
        rw [get_ttl_for_screen_after_get]
  · subst hp
    cases hcg : env.coingecko with
    | some d =>
      refine ⟨"coingecko", d, by decide, ?_, ?_, by decide⟩
      · rw [hstep]
        simp [CryptoEnv.sources, btcFallbackLoop, hcg]
      · rw [hstep]
        simp [CryptoEnv.sources, btcFallbackLoop, hcg, CacheService.set,
          dictGet?_dictSet_self]
        rw [get_ttl_for_screen_after_get]
    | none =>
      have hbin : (env.binance).isSome = true := by
        rcases hsome with ⟨q, hqm, hqne, hqs⟩
        simp only [CryptoEnv.sources, List.mem_cons, List.not_mem_nil, or_false] at hqm
        rcases hqm with rfl | rfl | rfl
        · rw [hcg] at hqs
          simp at hqs
        · exact absurd rfl hqne
        · exact hqs
      rcases Option.isSome_iff_exists.mp hbin with ⟨d, hbd⟩
      refine ⟨"binance", d, by decide, ?_, ?_, by decide⟩
      · rw [hstep]
        simp [CryptoEnv.sources, btcFallbackLoop, hcg, hbd]
      · rw [hstep]
        simp [CryptoEnv.sources, btcFallbackLoop, hcg, hbd, CacheService.set,
          dictGet?_dictSet_self]
        rw [get_ttl_for_screen_after_get]
  · subst hp
    cases hcg : env.coingecko with
    | some d =>
      refine ⟨"coingecko", d, by decide, ?_, ?_, by decide⟩
      · rw [hstep]
        simp [CryptoEnv.sources, btcFallbackLoop, hcg]
      · rw [hstep]
        simp [CryptoEnv.sources, btcFallbackLoop, hcg, CacheService.set,
          dictGet?_dictSet_self]
        rw [get_ttl_for_screen_after_get]
    | none =>
      have hcmcs : (env.coinmarketcap).isSome = true := by
        rcases hsome with ⟨q, hqm, hqne, hqs⟩
        simp only [CryptoEnv.sources, List.mem_cons, List.not_mem_nil, or_false] at hqm
        rcases hqm with rfl | rfl | rfl
        · rw [hcg] at hqs
          simp at hqs
        · exact hqs
        · exact absurd rfl hqne
      rcases Option.isSome_iff_exists.mp hcmcs with ⟨d, hcd⟩
      refine ⟨"coinmarketcap", d, by decide, ?_, ?_, by decide⟩
      · rw [hstep]
        simp [CryptoEnv.sources, btcFallbackLoop, hcg, hcd]
      · rw [hstep]
        simp [CryptoEnv.sources, btcFallbackLoop, hcg, hcd, CacheService.set,
          dictGet?_dictSet_self]
        rw [get_ttl_for_screen_after_get]

/-- Witness for C5: preferred source `coingecko` fails, `coinmarketcap`
succeeds with payload 5; default TTL 60 gives fallback TTL 30. -/
theorem fallback_half_ttl_witness :
    (("coingecko" : String) = "coingecko" ∨ ("coingecko" : String) = "coinmarketcap"
        ∨ ("coingecko" : String) = "binance")
    ∧ ((⟨[], 60, []⟩ : CacheService Nat).get ("btc_prices_" ++ "coingecko") 0).2 = none
    ∧ dictGet? (CryptoEnv.sources (⟨none, some 5, none, id⟩ : CryptoEnv Nat)) "coingecko"
        = some none
    ∧ (∃ q ∈ CryptoEnv.sources (⟨none, some 5, none, id⟩ : CryptoEnv Nat),
        q.1 ≠ "coingecko" ∧ q.2.isSome = true)
    ∧ (∃ (name : String) (d : Nat),
        name ≠ "coingecko"
        ∧ (get_btc_prices (⟨[], 60, []⟩ : CacheService Nat)
              (⟨none, some 5, none, id⟩ : CryptoEnv Nat) "coingecko" 0).2 = some d
        ∧ dictGet? ((get_btc_prices (⟨[], 60, []⟩ : CacheService Nat)
              (⟨none, some 5, none, id⟩ : CryptoEnv Nat) "coingecko" 0).1).cache
              ("btc_prices_" ++ name ++ "_fallback")
            = some ⟨d, 0, Int.fdiv
                ((⟨[], 60, []⟩ : CacheService Nat).get_ttl_for_screen "bitcoin_prices") 2⟩
        ∧ "btc_prices_" ++ name ++ "_fallback" ≠ "btc_prices_" ++ "coingecko") :=
  ⟨Or.inl rfl, by decide, by decide, by decide,
   fallback_half_ttl (⟨[], 60, []⟩ : CacheService Nat)
     (⟨none, some 5, none, id⟩ : CryptoEnv Nat) "coingecko" 0
     (Or.inl rfl) (by decide) (by decide) (by decide)⟩

/-- C6: sweep semantics and idempotence.  `cleanup_expired` evaluates all
entries against the single `now` snapshot it takes, deletes exactly the
entries with `now - timestamp > ttl` (given the dict invariant that keys
are unique), returns their count, and is idempotent: a second sweep with
no intervening `set` (same snapshot) removes 0 and leaves the store
unchanged. -/
theorem sweep_semantics_idempotence {α : Type} (svc : CacheService α) (now : Int)
    (hnodup : (svc.cache.map Prod.fst).Nodup) :
    (svc.cleanup_expired now).1.cache
        = svc.cache.filter (fun p => !(isExpired now p.2))
    ∧ (svc.cleanup_expired now).2
        = svc.cache.countP (fun p => isExpired now p.2)
    ∧ ((svc.cleanup_expired now).1.cleanup_expired now).2 = 0
    ∧ ((svc.cleanup_expired now).1.cleanup_expired now).1
        = (svc.cleanup_expired now).1 := by
  have h1 : (svc.cleanup_expired now).1.cache
      = svc.cache.filter (fun p => !(isExpired now p.2)) := by
    show ((svc.cache.filter (fun p => isExpired now p.2)).map Prod.fst).foldl
        (fun c k => dictRemove c k) svc.cache
      = svc.cache.filter (fun p => !(isExpired now p.2))
    rw [foldl_dictRemove_eq_filter]
    refine filter_ext_mem _ _ _ (fun x hx => ?_)
    cases hexp : isExpired now x.2 with
    | true =>
      have hmem : x.1 ∈ (svc.cache.filter (fun p => isExpired now p.2)).map Prod.fst :=
        List.mem_map_of_mem Prod.fst (List.mem_filter.2 ⟨hx, hexp⟩)
      simp [hmem]
    | false =>
      have hnot : x.1 ∉ (svc.cache.filter (fun p => isExpired now p.2)).map Prod.fst := by
        intro hmem
        rcases List.mem_map.1 hmem with ⟨q, hqf, hq1⟩
        rcases List.mem_filter.1 hqf with ⟨hqc, hqe⟩
        have : q = x := nodup_keys_inj hnodup hqc hx hq1
        rw [this] at hqe
        rw [hexp] at hqe
        cases hqe
      simp [hnot]
  have h2 : (svc.cleanup_expired now).2
      = svc.cache.countP (fun p => isExpired now p.2) := by
    show ((svc.cache.filter (fun p => isExpired now p.2)).map Prod.fst).length
      = svc.cache.countP (fun p => isExpired now p.2)
    rw [List.length_map, List.countP_eq_length_filter]
  have hall : ∀ p ∈ (svc.cleanup_expired now).1.cache, isExpired now p.2 = false := by
    intro p hp
    rw [h1] at hp
    have := (List.mem_filter.1 hp).2
    simpa using this
  have hfil : ((svc.cleanup_expired now).1.cache.filter
      (fun p => isExpired now p.2)) = [] := by
    rw [List.filter_eq_nil_iff]
    intro p hp
    simp [hall p hp]
  refine ⟨h1, h2, ?_, ?_⟩
  · show (((svc.cleanup_expired now).1.cache.filter
        (fun p => isExpired now p.2)).map Prod.fst).length = 0
    rw [hfil]
    rfl
  · show ({ (svc.cleanup_expired now).1 with
        cache := (((svc.cleanup_expired now).1.cache.filter
          (fun p => isExpired now p.2)).map Prod.fst).foldl
            (fun c k => dictRemove c k) (svc.cleanup_expired now).1.cache }
      : CacheService α) = (svc.cleanup_expired now).1
    rw [hfil]
    rfl

/-- Witness for C6: a two-entry store at time 50 where `"a"` (TTL 5) is
expired and `"b"` (TTL 100) is valid. -/
theorem sweep_semantics_idempotence_witness :
    (((⟨[("a", ⟨1, 0, 5⟩), ("b", ⟨2, 0, 100⟩)], 60, []⟩ : CacheService Nat).cache.map
        Prod.fst).Nodup)
    ∧ (((⟨[("a", ⟨1, 0, 5⟩), ("b", ⟨2, 0, 100⟩)], 60, []⟩ : CacheService Nat).cleanup_expired
            50).1.cache
          = (⟨[("a", ⟨1, 0, 5⟩), ("b", ⟨2, 0, 100⟩)], 60, []⟩ : CacheService Nat).cache.filter
              (fun p => !(isExpired 50 p.2))
        ∧ ((⟨[("a", ⟨1, 0, 5⟩), ("b", ⟨2, 0, 100⟩)], 60, []⟩ : CacheService Nat).cleanup_expired
            50).2
          = (⟨[("a", ⟨1, 0, 5⟩), ("b", ⟨2, 0, 100⟩)], 60, []⟩ : CacheService Nat).cache.countP
              (fun p => isExpired 50 p.2)
        ∧ ((((⟨[("a", ⟨1, 0, 5⟩), ("b", ⟨2, 0, 100⟩)], 60, []⟩ : CacheService Nat).cleanup_expired
            50).1.cleanup_expired 50).2 = 0)
        ∧ ((((⟨[("a", ⟨1, 0, 5⟩), ("b", ⟨2, 0, 100⟩)], 60, []⟩ : CacheService Nat).cleanup_expired
            50).1.cleanup_expired 50).1
          = ((⟨[("a", ⟨1, 0, 5⟩), ("b", ⟨2, 0, 100⟩)], 60, []⟩ : CacheService Nat).cleanup_expired
            50).1)) :=
  ⟨by decide,
   sweep_semantics_idempotence
     (⟨[("a", ⟨1, 0, 5⟩), ("b", ⟨2, 0, 100⟩)], 60, []⟩ : CacheService Nat) 50 (by decide)⟩

/-- Counterexample to C7 as stated: `resolve` does not always return a
*positive* TTL — nothing validates the configured values, so the
configuration string `"weather:0"` makes `resolve("weather")` return 0. -/
theorem ttl_resolution_counterexample :
    ¬ (0 < CacheService.get_ttl_for_screen
        (⟨[], 60, parse_screen_cache_config "weather:0"⟩ : CacheService Nat)
        "weather") := by
  decide

/-- C7 (amended): TTL resolution.  `get_ttl_for_screen` is a pure, total
lookup: it returns the override for the exact category name when one
exists and the configured default otherwise; the result is positive
whenever the default TTL and every configured override are positive
(positivity is not enforced by the code itself). -/
theorem ttl_resolution_lookup {α : Type} (svc : CacheService α) (category : String)
    (hd : 0 < svc.default_ttl)
    (ho : ∀ p ∈ svc.screen_cache_config, 0 < p.2) :
    0 < svc.get_ttl_for_screen category
    ∧ (dictGet? svc.screen_cache_config category = none →
        svc.get_ttl_for_screen category = svc.default_ttl)
    ∧ (∀ t : Int, dictGet? svc.screen_cache_config category = some t →
        svc.get_ttl_for_screen category = t) := by
  unfold CacheService.get_ttl_for_screen
  cases h : dictGet? svc.screen_cache_config category with
  | none =>
    refine ⟨?_, ?_, ?_⟩
    · simpa using hd
    · intro _
      simp
    · intro t ht
      exact Option.noConfusion ht
  | some t =>
    have hmem : (category, t) ∈ svc.screen_cache_config := dictGet?_mem h
    refine ⟨?_, ?_, ?_⟩
    · simpa using ho _ hmem
    · intro hc
      exact Option.noConfusion hc
    · intro t' ht'
      rw [← Option.some.inj ht']
      rfl

/-- Witness for C7 (amended): default 60, single override
`weather ↦ 300`. -/
theorem ttl_resolution_lookup_witness :
    ((0 : Int) < (⟨[], 60, [("weather", 300)]⟩ : CacheService Nat).default_ttl)
    ∧ (∀ p ∈ (⟨[], 60, [("weather", 300)]⟩ : CacheService Nat).screen_cache_config,
        (0 : Int) < p.2)
    ∧ (0 < (⟨[], 60, [("weather", 300)]⟩ : CacheService Nat).get_ttl_for_screen "weather"
        ∧ (dictGet? (⟨[], 60, [("weather", 300)]⟩ : CacheService Nat).screen_cache_config
              "weather" = none →
            (⟨[], 60, [("weather", 300)]⟩ : CacheService Nat).get_ttl_for_screen "weather"
              = (⟨[], 60, [("weather", 300)]⟩ : CacheService Nat).default_ttl)
        ∧ (∀ t : Int,
            dictGet? (⟨[], 60, [("weather", 300)]⟩ : CacheService Nat).screen_cache_config
                "weather" = some t →
              (⟨[], 60, [("weather", 300)]⟩ : CacheService Nat).get_ttl_for_screen "weather"
                = t)) :=
  ⟨by decide, by decide,
   ttl_resolution_lookup (⟨[], 60, [("weather", 300)]⟩ : CacheService Nat) "weather"
     (by decide) (by decide)⟩

/-- Counterexample to C8 as stated: in `"a:x,b:10"` the malformed entry
`a:x` raises inside the loop-wide `try`, so the *well-formed* entry
`b:10` is dropped — a malformed entry does make other well-formed
entries in the same string be lost. -/
theorem config_parse_counterexample :
    ¬ (dictGet? (parse_screen_cache_config "a:x,b:10") "b" = some 10) := by
  decide

/-- C8 (amended): config-parse resilience.  Parsing never fails: an entry
without a colon is skipped and the loop continues; but an entry whose
TTL fails integer parsing aborts the rest of the parse — the entries
successfully parsed before it are kept and every later entry is dropped;
startup continues with that partial configuration. -/
theorem config_parse_abort_semantics (xs ys : List (List Char)) (bad : List Char)
    (config : List (String × Int))
    (hxs : ∀ item ∈ xs, item.contains ':' = false
            ∨ (pyInt? (splitColon1 (pyStrip item)).2).isSome = true)
    (hbadc : bad.contains ':' = true)
    (hbadi : pyInt? (splitColon1 (pyStrip bad)).2 = none) :
    parseScreenCacheLoop (xs ++ bad :: ys) config = parseScreenCacheLoop xs config
    ∧ (∀ zs : List (List Char), (∀ item ∈ zs, item.contains ':' = false) →
        parseScreenCacheLoop zs config = config) := by
  have habort : ∀ (xs' : List (List Char)) (cfg : List (String × Int)),
      (∀ item ∈ xs', item.contains ':' = false
        ∨ (pyInt? (splitColon1 (pyStrip item)).2).isSome = true) →
      parseScreenCacheLoop (xs' ++ bad :: ys) cfg = parseScreenCacheLoop xs' cfg := by
    intro xs'
    induction xs' with
    | nil =>
      intro cfg _
      simp only [List.nil_append, parseScreenCacheLoop, hbadc, if_true, hbadi]
    | cons x rest ih =>
      intro cfg hx
      have hxr := fun item hi => hx item (List.mem_cons_of_mem _ hi)
      by_cases hcx : x.contains ':' = true
      · rcases hx x (List.mem_cons_self _ _) with hnc | hsome
        · rw [hnc] at hcx
          cases hcx
        · rcases Option.isSome_iff_exists.mp hsome with ⟨n, hn⟩
          simp only [List.cons_append, parseScreenCacheLoop, hcx, if_true, hn]
          exact ih _ hxr
      · have hcf : x.contains ':' = false := by simpa using hcx
        simp only [List.cons_append, parseScreenCacheLoop, hcf, Bool.false_eq_true,
          if_false]
        exact ih _ hxr
  have hskip : ∀ (zs : List (List Char)) (cfg : List (String × Int)),
      (∀ item ∈ zs, item.contains ':' = false) →
      parseScreenCacheLoop zs cfg = cfg := by
    intro zs
    induction zs with
    | nil =>
      intro cfg _
      rfl
    | cons z rest ih =>
      intro cfg hz
      have hzf := hz z (List.mem_cons_self _ _)
      simp only [parseScreenCacheLoop, hzf, Bool.false_eq_true, if_false]
      exact ih cfg (fun item hi => hz item (List.mem_cons_of_mem _ hi))
  exact ⟨habort xs config hxs, fun zs hz => hskip zs config hz⟩

/-- Witness for C8 (amended): the well-formed `b:10` before the malformed
`a:x` is kept, `c:5` after it is dropped. -/
theorem config_parse_abort_witness :
    (∀ item ∈ ["b:10".toList], item.contains ':' = false
        ∨ (pyInt? (splitColon1 (pyStrip item)).2).isSome = true)
    ∧ "a:x".toList.contains ':' = true
    ∧ pyInt? (splitColon1 (pyStrip "a:x".toList)).2 = none
    ∧ (parseScreenCacheLoop (["b:10".toList] ++ "a:x".toList :: ["c:5".toList]) []
          = parseScreenCacheLoop ["b:10".toList] []
        ∧ (∀ zs : List (List Char), (∀ item ∈ zs, item.contains ':' = false) →
            parseScreenCacheLoop zs [] = [])) :=
  ⟨by decide, by decide, by decide,
   config_parse_abort_semantics ["b:10".toList] ["c:5".toList] "a:x".toList []
     (by decide) (by decide) (by decide)⟩

/-- Counterexample to C9 as stated: on a one-entry store, `clear()` does
not return the number of entries removed — the Python method computes the
size only for a debug log and returns `None`. -/
theorem clear_count_counterexample :
    ¬ ((CacheService.clear
        (⟨[("k", ⟨0, 0, 60⟩)], 60, []⟩ : CacheService Nat)).2 = some 1) := by
  decide

/-- C9 (amended): `clear()` removes all entries — the store is empty
afterwards and `stats().total_entries` is 0 — but returns `None` rather
than the removed count (the count is only written to the debug log). -/
theorem clear_empties_returns_none {α : Type} (svc : CacheService α) (now : Int) :
    (svc.clear).1.cache = []
    ∧ ((svc.clear).1.get_cache_stats now).total_entries = 0
    ∧ (svc.clear).2 = none :=
  ⟨rfl, rfl, rfl⟩

/-- C10: stats partition invariant.  For every store state and clock
value, `get_cache_stats` classifies every entry as exactly one of valid
(`now - timestamp <= ttl`) or expired, so
`total_entries = valid_entries + expired_entries`; the computation is a
pure read of the store. -/
theorem stats_partition {α : Type} (svc : CacheService α) (now : Int) :
    (svc.get_cache_stats now).total_entries
        = (svc.get_cache_stats now).valid_entries
          + (svc.get_cache_stats now).expired_entries
    ∧ (svc.get_cache_stats now).valid_entries
        = svc.cache.countP (fun p => decide (now - p.2.timestamp ≤ p.2.ttl))
    ∧ (svc.get_cache_stats now).expired_entries
        = svc.cache.countP (fun p => !decide (now - p.2.timestamp ≤ p.2.ttl)) := by
  have h := stats_foldl now svc.cache 0 0
  have hl := length_eq_countP_valid_add now svc.cache
  simp at h hl
  refine ⟨?_, ?_, ?_⟩ <;> simp [CacheService.get_cache_stats, h]
  omega
